import Mathlib

/-
Verification development for the repository's LFU cache (package `lfu`,
built on the intrusive doubly linked list of package `linkedlist`) and for
the sequential logic of the map-reduce crawler (package `crawler`).

Representation mapping used by the shallow embedding:

* An intrusive doubly linked list with a sentinel node is represented by a
  Lean `List` in first-to-last order.  `PushFront` is consing, `PushBack`
  is appending, `Last()` is `List.getLast?`, `RemoveNode` is filtering the
  node out, and `PutNodeBeforeAnotherNode` is insertion in front of the
  designated element.
* Go node pointers are represented by numeric identities: every cache item
  carries an `iid` and every frequency-group node a `gid`, allocated from a
  counter `nextId` in the cache state.  The Go maps `keyToCacheItem` and
  `freqToFreqGroupNode` become functions to `Option Nat` returning the
  identity of the referenced node.
* Go runtime faults (dereferencing the nil `freqGroupsList` interface or a
  nil node pointer obtained from a missing map entry), as well as accesses
  that would read or mutate a node detached from every modelled structure,
  are modelled by returning `none`: operations have type `... → Option _`
  and `none` means the call does not return normally.
* The cache item `frequency` field and group `frequency` field are `Nat`
  (they are only ever 0, 1, or incremented); the `size` and `capacity`
  counters are `Int`, matching Go's signed `int`.
-/

namespace lfu

/-- Cache item as in the source: a key, a value and a usage-frequency
field.  `iid` is the node identity standing for the Go pointer to the
`linkedlist.Node` holding the item. -/
structure CacheItem (K V : Type) where
  iid : Nat
  key : K
  value : V
  frequency : Nat
deriving DecidableEq

/-- Frequency group as in the source: the `frequency` label, the explicit
`size` counter field, and the inner `elementsList` of cache items in
first-to-last (most-recent-to-least-recent) order.  `gid` is the node
identity standing for the Go pointer to the group's list node. -/
structure FrequencyGroup (K V : Type) where
  gid : Nat
  frequency : Nat
  size : Int
  elementsList : List (CacheItem K V)
deriving DecidableEq

/-- The LFU cache state, mirroring the fields of `cacheImpl`.
`freqGroupsList` is the outer list of frequency groups in first-to-last
order; an empty list stands for both the nil (never created) outer list
and a created-but-empty one, since both make `Last()` unusable.
`nextId` is the allocator for node identities. -/
structure cacheImpl (K V : Type) where
  capacity : Int
  size : Int
  freqToFreqGroupNode : Nat → Option Nat
  keyToCacheItem : K → Option Nat
  freqGroupsList : List (FrequencyGroup K V)
  freeNodesOfFreqGroups : List (FrequencyGroup K V)
  nextId : Nat

def DefaultCapacity : Int := 5

/-- Fresh cache with the given capacity, as built at the end of `New`. -/
def mkCache (K V : Type) (c : Int) : cacheImpl K V :=
  { capacity := c
    size := 0
    freqToFreqGroupNode := fun _ => none
    keyToCacheItem := fun _ => none
    freqGroupsList := []
    freeNodesOfFreqGroups := []
    nextId := 0 }

/-- `lfu.New`: no argument defaults the capacity, more than two arguments
or a negative first argument fail fast (modelled as `none`), otherwise the
first argument is the capacity. -/
def New (K V : Type) (capacity : List Int) : Option (cacheImpl K V) :=
  if capacity.length = 0 then some (mkCache K V DefaultCapacity)
  else if capacity.length > 2 then none
  else if capacity.headD 0 < 0 then none
  else some (mkCache K V (capacity.headD 0))

section Ops

variable {K V : Type} [DecidableEq K]

/-- Point update of the frequency-to-group-node map. -/
def setFreqIdx (m : Nat → Option Nat) (f : Nat) (g : Option Nat) : Nat → Option Nat :=
  fun x => if x = f then g else m x

/-- Point update of the key-to-cache-item map. -/
def setKeyIdx (m : K → Option Nat) (k : K) (v : Option Nat) : K → Option Nat :=
  fun x => if x = k then v else m x

/-- Find the cache item with node identity `iid` in the inner lists. -/
def findItemInGroups (gs : List (FrequencyGroup K V)) (iid : Nat) : Option (CacheItem K V) :=
  gs.findSome? (fun g => g.elementsList.find? (fun it => it.iid == iid))

/-- In-place mutation of the cache item node `iid`, wherever it lives. -/
def mapItemInGroups (gs : List (FrequencyGroup K V)) (iid : Nat)
    (f : CacheItem K V → CacheItem K V) : List (FrequencyGroup K V) :=
  gs.map (fun g =>
    { g with elementsList := g.elementsList.map (fun it => if it.iid = iid then f it else it) })

/-- `linkedlist.RemoveNode` on the cache item node `iid`. -/
def removeItemFromGroups (gs : List (FrequencyGroup K V)) (iid : Nat) :
    List (FrequencyGroup K V) :=
  gs.map (fun g => { g with elementsList := g.elementsList.filter (fun it => it.iid != iid) })

/-- Find the outer-list group node with identity `gid`. -/
def findGroup (gs : List (FrequencyGroup K V)) (gid : Nat) : Option (FrequencyGroup K V) :=
  gs.find? (fun g => g.gid == gid)

/-- In-place mutation of the group node `gid`. -/
def mapGroupInList (gs : List (FrequencyGroup K V)) (gid : Nat)
    (f : FrequencyGroup K V → FrequencyGroup K V) : List (FrequencyGroup K V) :=
  gs.map (fun g => if g.gid = gid then f g else g)

/-- `linkedlist.RemoveNode` on the group node `gid`. -/
def removeGroup (gs : List (FrequencyGroup K V)) (gid : Nat) : List (FrequencyGroup K V) :=
  gs.filter (fun g => g.gid != gid)

/-- The group node immediately preceding the node `gid` in the outer list
(`.Prev`); `none` when `gid` is first, i.e. when `.Prev` is the sentinel. -/
def prevGroup : List (FrequencyGroup K V) → Nat → Option (FrequencyGroup K V)
  | [], _ => none
  | [_], _ => none
  | g :: g2 :: rest, gid =>
    if g2.gid = gid then some g else prevGroup (g2 :: rest) gid

/-- `linkedlist.PutNodeBeforeAnotherNode`: splice `newg` immediately in
front of the group node `gid`. -/
def insertGroupBefore : List (FrequencyGroup K V) → Nat → FrequencyGroup K V →
    List (FrequencyGroup K V)
  | [], _, _ => []
  | g :: rest, gid, newg =>
    if g.gid = gid then newg :: g :: rest else g :: insertGroupBefore rest gid newg

/-- `createFrequencyGroupNode`: a fresh group node of the given frequency
whose inner list is exactly the given cache item; the item's frequency
field is set to the group frequency. -/
def createFrequencyGroupNode (nid : Nat) (cacheItemNode : CacheItem K V) (frequency : Nat) :
    FrequencyGroup K V :=
  { gid := nid
    frequency := frequency
    size := 1
    elementsList := [{ cacheItemNode with frequency := frequency }] }

/-- `cacheImpl.getNewFrequencyGroupNode`: reuse the last free group node if
one exists, otherwise allocate a fresh one.  Returns the updated cache
state together with the produced group node (not yet spliced anywhere). -/
def getNewFrequencyGroupNode (l : cacheImpl K V) (cacheItemNode : CacheItem K V)
    (newFrequency : Nat) : cacheImpl K V × FrequencyGroup K V :=
  match l.freeNodesOfFreqGroups.getLast? with
  | none =>
    ({ l with nextId := l.nextId + 1 },
     createFrequencyGroupNode l.nextId cacheItemNode newFrequency)
  | some free =>
    ({ l with freeNodesOfFreqGroups := l.freeNodesOfFreqGroups.dropLast },
     { free with
        elementsList := { cacheItemNode with frequency := newFrequency } :: free.elementsList
        size := 1
        frequency := newFrequency })

/-- `cacheImpl.updateFreqAndMoveCacheItemNode` on the item node `iid`:
raise the item's frequency by one and relocate it, following the source
branch for branch.  `none` models a run that does not return normally
(nil-pointer dereference after a missing `freqToFreqGroupNode` entry) or
that reaches a node the model treats as unreachable. -/
def updateFreqAndMoveCacheItemNode (l : cacheImpl K V) (iid : Nat) :
    Option (cacheImpl K V) :=
  match findItemInGroups l.freqGroupsList iid with
  | none => none
  | some cacheItemNode =>
    let currentFrequency := cacheItemNode.frequency
    match l.freqToFreqGroupNode currentFrequency with
    | none => none
    | some gid =>
      match findGroup l.freqGroupsList gid with
      | none => none
      | some curG =>
        let newFrequency := currentFrequency + 1
        let sizeAfter : Int := curG.size - 1
        let l1 := { l with
          freqGroupsList := mapGroupInList l.freqGroupsList gid
            (fun g => { g with size := sizeAfter }) }
        let l2 :=
          if sizeAfter = 0 then
            { l1 with freqToFreqGroupNode := setFreqIdx l1.freqToFreqGroupNode currentFrequency none }
          else l1
        let pg := prevGroup l2.freqGroupsList gid
        let greaterFrequency : Nat :=
          match pg with
          | none => 0
          | some g => g.frequency
        if greaterFrequency = newFrequency then
          match pg with
          | none => none
          | some greaterG =>
            let l3 := { l2 with freqGroupsList := removeItemFromGroups l2.freqGroupsList iid }
            let moved := { cacheItemNode with frequency := greaterG.frequency }
            let l4 := { l3 with
              freqGroupsList := mapGroupInList l3.freqGroupsList greaterG.gid
                (fun g => { g with elementsList := moved :: g.elementsList, size := g.size + 1 }) }
            if sizeAfter = 0 then
              match findGroup l4.freqGroupsList gid with
              | none => none
              | some emptied =>
                some { l4 with
                  freqGroupsList := removeGroup l4.freqGroupsList gid
                  freeNodesOfFreqGroups := l4.freeNodesOfFreqGroups ++ [emptied] }
            else some l4
        else
          if sizeAfter = 0 then
            let l3 := { l2 with
              freqGroupsList := mapGroupInList l2.freqGroupsList gid
                (fun g => { g with frequency := newFrequency, size := g.size + 1 }) }
            let l4 := { l3 with
              freqToFreqGroupNode := setFreqIdx l3.freqToFreqGroupNode newFrequency (some gid) }
            some { l4 with
              freqGroupsList := mapItemInGroups l4.freqGroupsList iid
                (fun it => { it with frequency := newFrequency }) }
          else
            let l3 := { l2 with freqGroupsList := removeItemFromGroups l2.freqGroupsList iid }
            let p := getNewFrequencyGroupNode l3 cacheItemNode newFrequency
            let l4 := { p.1 with
              freqToFreqGroupNode := setFreqIdx p.1.freqToFreqGroupNode newFrequency (some p.2.gid) }
            some { l4 with freqGroupsList := insertGroupBefore l4.freqGroupsList gid p.2 }

/-- `cacheImpl.Get`: on a hit, read the value, then bump the frequency. -/
def Get (l : cacheImpl K V) (key : K) : Option (Option V × cacheImpl K V) :=
  match l.keyToCacheItem key with
  | none => some (none, l)
  | some iid =>
    match findItemInGroups l.freqGroupsList iid with
    | none => none
    | some cacheItem =>
      (updateFreqAndMoveCacheItemNode l iid).map (fun l2 => (some cacheItem.value, l2))

/-- The eviction arm of `cacheImpl.Put` (taken when `size == capacity` and
the key is absent): reuse the last item node of the last group.  Returns
the state before the final key-map insertion, together with the reused
node's identity. -/
def evictionPut (l : cacheImpl K V) (key : K) (value : V) :
    Option (cacheImpl K V × Nat) :=
  match l.freqGroupsList.getLast? with
  | none => none
  | some minFrequencyGroup =>
    match minFrequencyGroup.elementsList.getLast? with
    | none => none
    | some victim =>
      let l1 := { l with keyToCacheItem := setKeyIdx l.keyToCacheItem victim.key none }
      let l2 := { l1 with
        freqGroupsList := mapItemInGroups l1.freqGroupsList victim.iid
          (fun it => { it with key := key, value := value }) }
      let vic := { victim with key := key, value := value }
      let l3 :=
        if minFrequencyGroup.frequency = 1 then
          if minFrequencyGroup.size = 1 then l2
          else
            let lA := { l2 with freqGroupsList := removeItemFromGroups l2.freqGroupsList victim.iid }
            let moved := { vic with frequency := minFrequencyGroup.frequency }
            { lA with
              freqGroupsList := mapGroupInList lA.freqGroupsList minFrequencyGroup.gid
                (fun g => { g with elementsList := moved :: g.elementsList }) }
        else
          if minFrequencyGroup.size = 1 then
            let lA := { l2 with
              freqGroupsList := mapGroupInList l2.freqGroupsList minFrequencyGroup.gid
                (fun g => { g with frequency := 1 }) }
            { lA with
              freqToFreqGroupNode := setFreqIdx lA.freqToFreqGroupNode 1 (some minFrequencyGroup.gid) }
          else
            let lA := { l2 with
              freqGroupsList := mapGroupInList l2.freqGroupsList minFrequencyGroup.gid
                (fun g => { g with size := g.size - 1 }) }
            let lB := { lA with freqGroupsList := removeItemFromGroups lA.freqGroupsList victim.iid }
            let p := getNewFrequencyGroupNode lB vic 1
            let lC := { p.1 with
              freqToFreqGroupNode := setFreqIdx p.1.freqToFreqGroupNode 1 (some p.2.gid) }
            { lC with freqGroupsList := lC.freqGroupsList ++ [p.2] }
      some (l3, victim.iid)

/-- The insertion arm of `cacheImpl.Put` (taken when `size < capacity` and
the key is absent): allocate a fresh item node and attach it to the
frequency-1 group.  Returns the state before the final key-map insertion,
together with the new node's identity. -/
def putNewItem (l : cacheImpl K V) (key : K) (value : V) :
    Option (cacheImpl K V × Nat) :=
  let iid := l.nextId
  let l0 := { l with nextId := l.nextId + 1 }
  let newItem : CacheItem K V := { iid := iid, key := key, value := value, frequency := 0 }
  if l0.size = 0 then
    let g := createFrequencyGroupNode l0.nextId newItem 1
    some ({ l0 with
      nextId := l0.nextId + 1
      freqGroupsList := [g]
      freqToFreqGroupNode := setFreqIdx l0.freqToFreqGroupNode 1 (some g.gid)
      size := l0.size + 1 }, iid)
  else
    match l0.freqGroupsList.getLast? with
    | none => none
    | some lastListElement =>
      if lastListElement.frequency = 1 then
        let it2 := { newItem with frequency := lastListElement.frequency }
        some ({ l0 with
          freqGroupsList := mapGroupInList l0.freqGroupsList lastListElement.gid
            (fun g => { g with elementsList := it2 :: g.elementsList, size := g.size + 1 })
          freqToFreqGroupNode := setFreqIdx l0.freqToFreqGroupNode 1 (some lastListElement.gid)
          size := l0.size + 1 }, iid)
      else
        let p := getNewFrequencyGroupNode l0 newItem 1
        some ({ p.1 with
          freqGroupsList := p.1.freqGroupsList ++ [p.2]
          freqToFreqGroupNode := setFreqIdx p.1.freqToFreqGroupNode 1 (some p.2.gid)
          size := p.1.size + 1 }, iid)

/-- `cacheImpl.Put`: overwrite-and-bump on a present key, otherwise evict
or insert, then record the key in the key map. -/
def Put (l : cacheImpl K V) (key : K) (value : V) : Option (cacheImpl K V) :=
  match l.keyToCacheItem key with
  | some iid =>
    (updateFreqAndMoveCacheItemNode l iid).map (fun l2 =>
      { l2 with
        freqGroupsList := mapItemInGroups l2.freqGroupsList iid
          (fun it => { it with value := value }) })
  | none =>
    let step :=
      if l.size = l.capacity then evictionPut l key value else putNewItem l key value
    step.map (fun p =>
      { p.1 with keyToCacheItem := setKeyIdx p.1.keyToCacheItem key (some p.2) })

/-- `cacheImpl.All`: the full sequence of yielded (key, value) pairs, outer
list first to last, inner lists first to last. -/
def All (l : cacheImpl K V) : List (K × V) :=
  if l.size = 0 then []
  else l.freqGroupsList.flatMap (fun g => g.elementsList.map (fun it => (it.key, it.value)))

def Size (l : cacheImpl K V) : Int := l.size

def Capacity (l : cacheImpl K V) : Int := l.capacity

/-- `cacheImpl.GetKeyFrequency`: read the item's frequency field without
touching the cache; the returned state is the state after the call. -/
def GetKeyFrequency (l : cacheImpl K V) (key : K) :
    Option (Option Nat × cacheImpl K V) :=
  match l.keyToCacheItem key with
  | none => some (none, l)
  | some iid =>
    (findItemInGroups l.freqGroupsList iid).map (fun it => (some it.frequency, l))

end Ops

/-- State after `New(2); Put(1,1); Put(2,2)` (keys and values are `Nat`).
Used to instantiate hypotheses of general theorems at a concrete cache. -/
def c1St : cacheImpl Nat Nat :=
  (((New Nat Nat [2]).bind (fun s => Put s 1 1)).bind (fun s => Put s 2 2)).getD
    (mkCache Nat Nat 0)

/-- State after `New(1); Put(1,1); Get(1); Put(2,2)`: the eviction that
reuses the slot of the frequency-2 entry relabels its group to frequency 1
without resetting the entry's own frequency field. -/
def c3St : cacheImpl Nat Nat :=
  ((((New Nat Nat [1]).bind (fun s => Put s 1 1)).bind
    (fun s => (Get s 1).map Prod.snd)).bind (fun s => Put s 2 2)).getD
    (mkCache Nat Nat 0)

/-- State after `New(2); Put(1,1); Put(2,2); Get(1); Get(1); Get(2);
Put(3,3); Get(3)`.  In this run key 1 is touched three times and key 3
twice (its insertion by `Put(3,3)` and one `Get`). -/
def c2St : cacheImpl Nat Nat :=
  ((((((((New Nat Nat [2]).bind (fun s => Put s 1 1)).bind (fun s => Put s 2 2)).bind
    (fun s => (Get s 1).map Prod.snd)).bind (fun s => (Get s 1).map Prod.snd)).bind
    (fun s => (Get s 2).map Prod.snd)).bind (fun s => Put s 3 3)).bind
    (fun s => (Get s 3).map Prod.snd)).getD (mkCache Nat Nat 0)

end lfu

namespace crawler

/-
Sequential logic of package `crawler`.  The concurrency (worker pools and
channels) is abstracted away: a run is summarised by the sequence of
arguments passed to `atomicErr.addError`, the list of partial results
drained from the result channel in arrival order, and the context error at
return time.  The definitions below are the sequential bodies translated
from the source.
-/

/-- `atomicErr.addError`: the latch keeps its current value unless it is
still empty.  `none` stands for a nil Go error. -/
def addError {E : Type} (aErr e : Option E) : Option E :=
  match aErr with
  | none => e
  | some x => some x

/-- The latch contents after a sequence of `addError` calls, starting from
the nil initial value. -/
def latchRun {E : Type} (calls : List (Option E)) : Option E :=
  calls.foldl addError none

/-- The tail of `crawlerImpl.Collect` after the result channel closes:
if the latch holds an error, return the zero result with it; otherwise
fold the drained partial results with `result = combiner(rv, result)`
starting from the zero result, and return the context error. -/
def collectFinish {E R : Type} (zeroR : R) (combiner : R → R → R)
    (resultValues : List R) (ctxErr : Option E) (latched : Option E) : R × Option E :=
  match latched with
  | some e => (zeroR, some e)
  | none => (resultValues.foldl (fun result rv => combiner rv result) zeroR, ctxErr)

/-- A Go panic payload: either a value satisfying the `error` interface or
any other value. -/
inductive PanicPayload (E O : Type) where
  | asError : E → PanicPayload E O
  | other : O → PanicPayload E O
deriving DecidableEq

/-- `protect`: run the user callable; `Except.error` models the callable
panicking with the given payload.  The returned pair is the latch after
the call and the outcome of the wrapped call, where an `Except.error`
outcome would model a panic propagating out of the wrapper.  The source
calls `recover()` unconditionally, so every panic is stopped: an
error-shaped payload is latched, any other payload is dropped, and the
wrapper returns the zero value of the result type in both cases. -/
def protect {α T E O : Type} (zero : T) (aE : Option E)
    (fn : α → Except (PanicPayload E O) T) (arg : α) :
    Option E × Except (PanicPayload E O) T :=
  match fn arg with
  | Except.ok t => (aE, Except.ok t)
  | Except.error (PanicPayload.asError e) => (addError aE (some e), Except.ok zero)
  | Except.error (PanicPayload.other _) => (aE, Except.ok zero)

/-- The transformer closure of `Collect` for one file: open, read, then
JSON-deserialise.  The three possible failures are supplied by the
external file-system and decoder; the first one encountered is latched
and the zero record is returned. -/
def transformFile {T E : Type} (zero : T) (aE : Option E)
    (openErr readErr : Option E) (unmarshal : Except E T) : Option E × T :=
  match openErr with
  | some e => (addError aE (some e), zero)
  | none =>
    match readErr with
    | some e => (addError aE (some e), zero)
    | none =>
      match unmarshal with
      | Except.error e => (addError aE (some e), zero)
      | Except.ok t => (aE, t)

end crawler

section Theorems

open lfu crawler

/-- Auxiliary: a non-empty latch is never overwritten by later calls. -/
theorem foldl_addError_some {E : Type} (x : E) (l : List (Option E)) :
    l.foldl addError (some x) = some x := by
  induction l with
  | nil => rfl
  | cons c cs ih => simpa [addError] using ih

/-- Auxiliary: the latch after a run holds the first non-nil argument ever
passed to `addError`. -/
theorem latchRun_eq_findSome {E : Type} (l : List (Option E)) :
    latchRun l = l.findSome? (fun x => x) := by
  induction l with
  | nil => rfl
  | cons c cs ih =>
    cases c with
    | none => simpa [latchRun, addError, List.findSome?] using ih
    | some x => simp [latchRun, addError, List.findSome?, foldl_addError_some]

/-- Claim C7: `Collect` returns the pair (zero value of R, first latched
error) whenever any error was latched during the run, and otherwise
returns the fold of all partial results under the combiner starting from
the zero value of R, paired with the context error; the latch keeps only
the first non-nil error passed to it and drops all later ones. -/
theorem collect_result_selection {E R : Type} (zeroR : R) (combiner : R → R → R)
    (calls : List (Option E)) (resultValues : List R) (ctxErr : Option E) :
    collectFinish zeroR combiner resultValues ctxErr (latchRun calls) =
      match calls.findSome? (fun x => x) with
      | some e => (zeroR, some e)
      | none => (resultValues.foldl (fun result rv => combiner rv result) zeroR, ctxErr) := by
  rw [latchRun_eq_findSome]
  cases h : calls.findSome? (fun x => x) <;> simp [collectFinish]

/-- Claim C8, counterexample: a callable that panics with a non-error
payload does not propagate the panic; `protect` swallows it and returns
the zero value with the latch untouched. -/
theorem protect_swallows_nonerror_panic :
    protect (0 : Nat) (none : Option Nat)
      (fun _ : Unit => Except.error (PanicPayload.other (7 : Nat))) () =
        (none, Except.ok 0) ∧
    (protect (0 : Nat) (none : Option Nat)
      (fun _ : Unit => Except.error (PanicPayload.other (7 : Nat))) ()).2 ≠
        Except.error (PanicPayload.other 7) :=
  ⟨rfl, fun h => nomatch h⟩

/-- Claim C8, amended: `protect` recovers every panic.  A panic carrying an
error payload is latched and the zero value is returned; a panic with any
other payload is dropped (not propagated) and the zero value is returned;
a normal return is passed through with the latch untouched. -/
theorem protect_behavior_amended {α T E O : Type} (zero : T) (aE : Option E)
    (fn : α → Except (PanicPayload E O) T) (arg : α) :
    (∀ t, fn arg = Except.ok t → protect zero aE fn arg = (aE, Except.ok t)) ∧
    (∀ e, fn arg = Except.error (PanicPayload.asError e) →
      protect zero aE fn arg = (addError aE (some e), Except.ok zero)) ∧
    (∀ o, fn arg = Except.error (PanicPayload.other o) →
      protect zero aE fn arg = (aE, Except.ok zero)) := by
  refine ⟨?_, ?_, ?_⟩ <;> intro x h <;> simp [protect, h]

/-- Witness for `protect_behavior_amended` at a concrete error-payload
panic: the error is latched and the zero value is returned. -/
theorem protect_behavior_amended_witness :
    protect (O := Nat) (0 : Nat) (none : Option Nat)
      (fun _ : Unit => Except.error (PanicPayload.asError (5 : Nat))) () =
        (some 5, Except.ok 0) :=
  (protect_behavior_amended (α := Unit) (T := Nat) (E := Nat) (O := Nat)
    0 none (fun _ => Except.error (PanicPayload.asError 5)) ()).2.1 5 rfl

/-- Claim C9: for every file processed by the transform stage, a failure
of opening, reading, or JSON-deserialising is stored in the error latch
and the zero value of the record type is emitted downstream. -/
theorem transform_error_latched_zero_emitted {T E : Type} (zero : T) (aE : Option E)
    (openErr readErr : Option E) (unmarshal : Except E T) :
    (∀ e, openErr = some e →
      transformFile zero aE openErr readErr unmarshal = (addError aE (some e), zero)) ∧
    (∀ e, openErr = none → readErr = some e →
      transformFile zero aE openErr readErr unmarshal = (addError aE (some e), zero)) ∧
    (∀ e, openErr = none → readErr = none → unmarshal = Except.error e →
      transformFile zero aE openErr readErr unmarshal = (addError aE (some e), zero)) := by
  refine ⟨?_, ?_, ?_⟩
  · intro e h; simp [transformFile, h]
  · intro e h1 h2; simp [transformFile, h1, h2]
  · intro e h1 h2 h3; simp [transformFile, h1, h2, h3]

/-- Witness for `transform_error_latched_zero_emitted` at a concrete open
failure: the error is latched and the zero record is emitted. -/
theorem transform_error_latched_zero_emitted_witness :
    transformFile (0 : Nat) (none : Option Nat) (some 3) none (Except.ok 0) =
      (some 3, 0) :=
  (transform_error_latched_zero_emitted 0 none (some 3) none (Except.ok 0)).1 3 rfl

/-- Claim C10: `GetKeyFrequency` leaves the entire cache state unchanged,
whether the key is present or absent. -/
theorem getKeyFrequency_frame {K V : Type} [DecidableEq K]
    (l : cacheImpl K V) (key : K) (p : Option Nat × cacheImpl K V)
    (h : GetKeyFrequency l key = some p) : p.2 = l := by
  revert h
  unfold GetKeyFrequency
  cases l.keyToCacheItem key with
  | none => intro h; cases h; rfl
  | some iid =>
    intro h
    rcases Option.map_eq_some'.mp h with ⟨a, _, hfa⟩
    rw [← hfa]

/-- Witness for `getKeyFrequency_frame` at a concrete populated cache. -/
theorem getKeyFrequency_frame_witness :
    ((some 1, c1St) : Option Nat × cacheImpl Nat Nat).2 = c1St :=
  getKeyFrequency_frame c1St 1 (some 1, c1St) rfl

end Theorems

section MoreTheorems

open lfu crawler

/-- Claim C5: with capacity 0 the source takes the eviction arm on the
first `Put` and dereferences the never-created outer list, so `Put` does
not return normally (modelled as `none`) instead of being a no-op;
construction itself succeeds and `Get` still fails with NotFound. -/
theorem put_capacity_zero_stuck :
    ((New Nat Nat [0]).bind (fun s => Put s 1 1)).isNone = true ∧
    (New Nat Nat [0]).isSome = true ∧
    ((New Nat Nat [0]).bind (fun s => (Get s 7).map Prod.fst)) = some none := by
  decide

/-- Claim C6, counterexample: construction with two capacity values does
not fail fast; it returns a cache with the first value as capacity,
although the claim says more than one value must fail. -/
theorem new_two_capacities_no_panic :
    (New Nat Nat [3, 7]).isSome = true ∧
    (New Nat Nat [3, 7]).map (fun s => s.capacity) = some 3 := by
  decide

/-- Claim C6, amended: construction with no value yields the default
capacity 5; it fails fast exactly when given more than two values or a
negative first value; otherwise the capacity is the first supplied value. -/
theorem new_capacity_amended {K V : Type} :
    ((New K V []).map (fun s => s.capacity) = some DefaultCapacity) ∧
    (∀ caps : List Int,
      (New K V caps).isNone = true ↔
        (2 < caps.length ∨ (0 < caps.length ∧ caps.headD 0 < 0))) ∧
    (∀ caps : List Int, 0 < caps.length → caps.length ≤ 2 → 0 ≤ caps.headD 0 →
      (New K V caps).map (fun s => s.capacity) = some (caps.headD 0)) := by
  refine ⟨rfl, ?_, ?_⟩
  · intro caps
    match caps with
    | [] => simp [New]
    | [a] =>
      by_cases h : a < 0
      · simp [New, h]
      · simp [New, h]
    | [a, b] =>
      by_cases h : a < 0
      · simp [New, h]
      · simp [New, h]
    | a :: b :: c :: rest => simp [New]
  · intro caps h1 h2 h3
    match caps, h3 with
    | [a], h3 =>
      simp only [List.headD_cons] at h3 ⊢
      simp [New, mkCache, not_lt.mpr h3]
    | [a, b], h3 =>
      simp only [List.headD_cons] at h3 ⊢
      simp [New, mkCache, not_lt.mpr h3]
    | a :: b :: c :: rest, h3 => simp at h2

/-- Claim C6, witness for the amended construction rule at two
non-negative values: the capacity is the first one. -/
theorem new_capacity_amended_witness :
    (New Nat Nat [3, 7]).map (fun s => s.capacity) = some 3 :=
  (new_capacity_amended (K := Nat) (V := Nat)).2.2 [3, 7] (by decide) (by decide) (by decide)

/-- Claim C3: after `New(1); Put(1,1); Get(1); Put(2,2)` the key 2 was
inserted by an eviction reusing a frequency-2 slot and has never been
touched since, so the claim predicts frequency 1; the source reports 2
because the eviction relabels the group without resetting the entry's
frequency field. -/
theorem getKeyFrequency_after_relabel_eviction_failing_run :
    (GetKeyFrequency c3St 2).map Prod.fst = some (some 2) ∧
    (GetKeyFrequency c3St 2).map Prod.fst ≠ some (some 1) := by
  decide

/-- Claim C4: in the state reached by `New(1); Put(1,1); Get(1); Put(2,2)`
the single active group has frequency 1 and a non-empty inner list, the
frequency index does map 1 to it, but its entry carries frequency field 2,
refuting the part of the claim that every entry carries its group's
frequency. -/
theorem group_entry_frequency_invariant_failing_run :
    c3St.freqGroupsList = [⟨1, 1, 1, [⟨0, 2, 2, 2⟩]⟩] ∧
    c3St.freqToFreqGroupNode 1 = some 1 ∧
    (c3St.freqGroupsList.all
      (fun g => g.elementsList.all (fun it => it.frequency == g.frequency))) = false := by
  decide

/-- Claim C2: in the run `New(2); Put(1,1); Put(2,2); Get(1); Get(1);
Get(2); Put(3,3); Get(3)` key 1 has been touched three times and key 3
only twice, yet `All` yields key 3 first: the yielded order does not
descend by the entries' true usage frequency.  The source also reports
frequency 3 for both keys through `GetKeyFrequency`. -/
theorem all_descending_frequency_failing_run :
    All c2St = [(3, 3), (1, 1)] ∧
    (GetKeyFrequency c2St 1).map Prod.fst = some (some 3) ∧
    (GetKeyFrequency c2St 3).map Prod.fst = some (some 3) := by
  decide

/-- Auxiliary: allocating or recycling a frequency-group node never
touches the key map. -/
theorem getNewFrequencyGroupNode_keyIdx {K V : Type}
    (l : cacheImpl K V) (it : CacheItem K V) (f : Nat) :
    (getNewFrequencyGroupNode l it f).1.keyToCacheItem = l.keyToCacheItem := by
  unfold getNewFrequencyGroupNode
  cases l.freeNodesOfFreqGroups.getLast? <;> rfl

/-- Auxiliary: the eviction arm of `Put` reuses the node of the last item
of the last group and, on the key map, deletes exactly that item's old
key (the final insertion of the new key happens in `Put` afterwards). -/
theorem evictionPut_keyIdx {K V : Type} [DecidableEq K]
    (l : cacheImpl K V) (k : K) (v : V)
    (minG : FrequencyGroup K V) (victim : CacheItem K V)
    (hlast : l.freqGroupsList.getLast? = some minG)
    (hvic : minG.elementsList.getLast? = some victim) :
    ∃ st1, evictionPut l k v = some (st1, victim.iid) ∧
      st1.keyToCacheItem = setKeyIdx l.keyToCacheItem victim.key none := by
  simp only [evictionPut, hlast, hvic]
  refine ⟨_, rfl, ?_⟩
  split_ifs <;> simp [getNewFrequencyGroupNode_keyIdx]

/-- Claim C1: on a full cache with positive capacity, `Put` of an absent
key evicts exactly the last entry of the last group of the outer list:
its old key is deleted from the key map, a subsequent `Get` of that key
fails with NotFound, the new key maps to the reused node, and every other
key's map entry is untouched. -/
theorem put_full_evicts_last_of_last {K V : Type} [DecidableEq K]
    (l : cacheImpl K V) (k : K) (v : V)
    (minG : FrequencyGroup K V) (victim : CacheItem K V)
    (hfull : l.size = l.capacity) (hpos : 0 < l.capacity)
    (habsent : l.keyToCacheItem k = none)
    (hlast : l.freqGroupsList.getLast? = some minG)
    (hvic : minG.elementsList.getLast? = some victim)
    (hvicin : l.keyToCacheItem victim.key ≠ none) :
    ∃ l2, Put l k v = some l2 ∧
      l2.keyToCacheItem victim.key = none ∧
      Get l2 victim.key = some (none, l2) ∧
      l2.keyToCacheItem k = some victim.iid ∧
      ∀ k2, k2 ≠ victim.key → k2 ≠ k → l2.keyToCacheItem k2 = l.keyToCacheItem k2 := by
  have hne : victim.key ≠ k := fun h => hvicin (h ▸ habsent)
  obtain ⟨st1, hev, hkey⟩ := evictionPut_keyIdx l k v minG victim hlast hvic
  have hvk : setKeyIdx st1.keyToCacheItem k (some victim.iid) victim.key = none := by
    simp only [setKeyIdx, if_neg hne, hkey]
    simp [setKeyIdx]
  refine ⟨{ st1 with keyToCacheItem := setKeyIdx st1.keyToCacheItem k (some victim.iid) },
    ?_, hvk, ?_, ?_, ?_⟩
  · simp only [Put, habsent, hfull]
    simp [hev]
  · simp only [Get, hvk]
  · simp [setKeyIdx]
  · intro k2 hk2v hk2k
    simp [setKeyIdx, hk2k, hkey, hk2v]

/-- Witness for `put_full_evicts_last_of_last` on the concrete full cache
`c1St` (capacity 2, keys 1 and 2, the last entry of the last group being
key 1's): putting key 3 removes key 1, maps key 3 to the reused node 0,
and leaves key 2's entry alone. -/
theorem put_full_evicts_last_of_last_witness :
    (Put c1St 3 3).map
        (fun l2 => (l2.keyToCacheItem 1, l2.keyToCacheItem 3, l2.keyToCacheItem 2)) =
      some (none, some 0, c1St.keyToCacheItem 2) := by
  obtain ⟨l2, h1, h2, h3, h4, h5⟩ :=
    put_full_evicts_last_of_last c1St 3 3 ⟨1, 1, 2, [⟨2, 2, 2, 1⟩, ⟨0, 1, 1, 1⟩]⟩
      ⟨0, 1, 1, 1⟩ (by decide) (by decide) (by decide) (by decide) (by decide) (by decide)
  rw [h1]
  simp only [Option.map_some']
  exact congrArg some (by rw [h2, h4, h5 2 (by decide) (by decide)])

end MoreTheorems
